import Mathlib

/-!
Verification development for the graph-sdk graph state engine.

The repository's visible surface is the FFI declaration header
(`src/ffi/graph_sdk_ffi.h`) and C test harnesses
(`src/bridge/ffi/src/c_example/main.c`, `src/ffi/src/tests/*`); the engine
itself (schema resolver, page codec, crypto layer, user graph, graph state
store, action/diff engine) is not part of the repository sources. Those
components are therefore modelled here from the specification's contract
(spec.md sections 3 to 8), and the properties are settled against that model.
-/

set_option autoImplicit false

namespace GraphSdk

/-- Modelled from the spec: UserId is an opaque 64-bit identifier (spec section 3);
embedded as Nat, with 2^64 bounds stated explicitly where the binary codec
needs them. -/
abbrev UserId := Nat

/-- Modelled from the spec: SchemaId is a small integer resolved via the
Schema Resolver (spec section 3). -/
abbrev SchemaId := Nat

/-- Modelled from the spec: privacy tier of a schema (spec section 3). -/
inductive PrivacyType
  | Public
  | Private
deriving DecidableEq

/-- Modelled from the spec: connection kind, Follow or Friendship (spec section 3). -/
inductive ConnKind
  | Follow
  | Friendship
deriving DecidableEq

/-- Modelled from the spec: a schema resolves to a
(version, connection-type, privacy) triple (spec section 4.1). -/
structure SchemaConfig where
  version : Nat
  kind : ConnKind
  privacy : PrivacyType
deriving DecidableEq

/-- Modelled from the spec: the Environment holds the schema table and the
configured limits (spec section 6). -/
structure Environment where
  capacityLimit : Nat
  maxPageBytes : Nat
  maxPageId : Nat
  maxKeyPageBytes : Nat
  schemaTable : List (SchemaId × SchemaConfig)
deriving DecidableEq

/-- Modelled from the spec: the Schema Resolver, a pure lookup against the
Environment's schema table (spec section 4.1). -/
def resolveSchema (env : Environment) (sid : SchemaId) : Option SchemaConfig :=
  (env.schemaTable.find? (fun p => p.1 == sid)).map Prod.snd

/-- Modelled from the spec: a Connection is a target UserId plus a key-index
reference, the key-index being 0 for public schemas (spec section 3). -/
structure Connection where
  target : UserId
  keyIdx : Nat
deriving DecidableEq

/-! ## Page Codec (spec section 4.2)

The engine's exact bit-packed binary layout is not part of this repository;
the codec is modelled with fixed-width 16-byte records (8 little-endian bytes
for the target id, 8 for the key index).  It preserves the specified codec
contract: decode is pure and deterministic, rejects truncated or structurally
invalid byte sequences distinctly from the empty page, and
decode (encode L) = L. -/

/-- Modelled from the spec: little-endian byte serialization of a natural
number into a fixed number of bytes. -/
def natToLE : Nat → Nat → List Nat
  | 0, _ => []
  | n + 1, x => (x % 256) :: natToLE n (x / 256)

/-- Modelled from the spec: little-endian byte deserialization. -/
def leToNat : List Nat → Nat
  | [] => 0
  | b :: bs => b + 256 * leToNat bs

/-- Modelled from the spec: a single connection's 16-byte record. -/
def encodeConn (c : Connection) : List Nat :=
  natToLE 8 c.target ++ natToLE 8 c.keyIdx

/-- Modelled from the spec: the Page Codec's encode of a connection list into
one page's raw bytes. -/
def encodePage (L : List Connection) : List Nat :=
  (L.map encodeConn).flatten

/-- Modelled from the spec: fuel-indexed decode loop of the Page Codec; the
fuel is instantiated with the byte count so the recursion is structural. -/
def decodeChunks (fuel : Nat) (bs : List Nat) : Option (List Connection) :=
  match bs with
  | [] => some []
  | b :: rest =>
    match fuel with
    | 0 => none
    | fuel' + 1 =>
      if (b :: rest).length < 16 then none
      else
        match decodeChunks fuel' ((b :: rest).drop 16) with
        | none => none
        | some cs =>
          some (⟨leToNat ((b :: rest).take 8), leToNat (((b :: rest).drop 8).take 8)⟩ :: cs)

/-- Modelled from the spec: the Page Codec's decode; rejects truncated byte
sequences (returning none, the MalformedPage outcome) distinctly from the
empty page (spec section 4.2). -/
def decodePage (bs : List Nat) : Option (List Connection) :=
  decodeChunks bs.length bs

/-! ## Key Resolver / Crypto Layer (spec section 4.3)

The underlying public-key primitives are external to the engine (spec
section 1); sealing is modelled as tagging the ciphertext with the recipient
public key, and a pair opens a sealed page exactly when it holds the secret
corresponding to that public key.  Key format validation (fixed expected
length per key type) happens before any cryptographic operation. -/

/-- Modelled from the spec: the fixed public/secret key length expected for
the X25519 key type used by the tests (32 bytes). -/
def keyLen : Nat := 32

/-- Modelled from the spec: a graph key pair, with public bytes and optional
secret bytes (spec section 3). -/
structure GraphKeyPair where
  publicKey : List Nat
  secretKey : Option (List Nat)
deriving DecidableEq

/-- Modelled from the spec: the public key derived from a secret key; stands
for the external key-agreement primitive, assumed correct (spec section 1). -/
def derivePublic (sec : List Nat) : List Nat :=
  sec.map (fun b => (b + 1) % 256)

/-- Modelled from the spec: every public key in a list has the expected fixed
length for its declared type (spec section 4.3). -/
def validKeyPairsPub (ks : List GraphKeyPair) : Bool :=
  ks.all (fun kp => kp.publicKey.length == keyLen)

/-- Modelled from the spec: every supplied secret key has the expected fixed
length (spec section 4.3). -/
def validKeyPairsSec (ks : List GraphKeyPair) : Bool :=
  ks.all (fun kp =>
    match kp.secretKey with
    | none => true
    | some s => s.length == keyLen)

/-- Modelled from the spec: sealPage tags the plaintext with the recipient's
public key (spec section 4.3). -/
def sealPage (plain : List Nat) (recipientPub : List Nat) : List Nat :=
  recipientPub ++ plain

/-- Modelled from the spec: a key pair can open a sealed page when it is the
consistent pair for the recipient public key the page was sealed under. -/
def canOpen (kp : GraphKeyPair) (cipher : List Nat) : Bool :=
  kp.publicKey == cipher.take keyLen &&
    (match kp.secretKey with
     | none => false
     | some s => derivePublic s == cipher.take keyLen) &&
    decide (keyLen ≤ cipher.length)

/-- Modelled from the spec: openPage resolves the key material and recovers
the plaintext, or fails (the DecryptionFailed outcome) when no supplied key
can open the page (spec section 4.3). -/
def openPage (cipher : List Nat) (ks : List GraphKeyPair) : Option (List Nat) :=
  if ks.any (fun kp => canOpen kp cipher) then some (cipher.drop keyLen) else none

/-! ## Data model of the store (spec sections 3, 6) -/

/-- Modelled from the spec: a Page of serialized connection data
(pageId, rawBytes, contentHash) (spec section 3). -/
structure PageData where
  pageId : Nat
  rawBytes : List Nat
  contentHash : Nat
deriving DecidableEq

/-- Modelled from the spec: one pending-diff operation, an add or remove of a
connection (spec section 3). -/
inductive DiffOp
  | connect (c : Connection)
  | disconnect (target : UserId)
deriving DecidableEq

/-- Modelled from the spec: the per-(user, schema) state, pages plus resolved
connections plus the ordered pending diff (spec sections 3, 4.4). -/
structure UserSchemaGraph where
  pages : List PageData
  connections : List Connection
  pending : List DiffOp
deriving DecidableEq

/-- Modelled from the spec: the per-user graph, one map from SchemaId to its
schema graph plus the user's key material, keys being append-only in import
order with AddGraphKey additions pending until export (spec sections 3, 4.3). -/
structure UserGraph where
  schemas : List (SchemaId × UserSchemaGraph)
  keys : List (List Nat)
  pendingKeys : List (List Nat)
deriving DecidableEq

/-- Modelled from the spec: the Graph State, the capacity-bounded map from
UserId to UserGraph plus the Environment it was built from (spec section 3). -/
structure GraphState where
  env : Environment
  capacity : Nat
  users : List (UserId × UserGraph)
deriving DecidableEq

/-- Modelled from the spec: the engine's error taxonomy (spec section 7). -/
inductive GraphError
  | InvalidSchemaId
  | MalformedPage
  | PageTooLarge
  | InvalidPublicKey
  | InvalidSecretKey
  | DecryptionFailed
  | CapacityExceeded
  | UserNotFound
  | KeyIndexUnresolved
deriving DecidableEq

/-- Modelled from the spec: the stable numeric code of each error, namespaced
below 1000 (spec section 7). -/
def errorCode : GraphError → Nat
  | .InvalidSchemaId => 1
  | .MalformedPage => 2
  | .PageTooLarge => 3
  | .InvalidPublicKey => 4
  | .InvalidSecretKey => 5
  | .DecryptionFailed => 6
  | .CapacityExceeded => 7
  | .UserNotFound => 8
  | .KeyIndexUnresolved => 9

/-- Modelled from the spec: an Import Bundle (spec section 6). -/
structure ImportBundle where
  userId : UserId
  schemaId : SchemaId
  keyPairs : List GraphKeyPair
  dsnpKeys : List (List Nat)
  pages : List PageData
deriving DecidableEq

/-- Modelled from the spec: an Action, a tagged union of Connect, Disconnect
and AddGraphKey (spec section 6). -/
inductive Action
  | connect (owner : UserId) (schemaId : SchemaId) (target : UserId)
  | disconnect (owner : UserId) (schemaId : SchemaId) (target : UserId)
  | addGraphKey (owner : UserId) (newPublicKey : List Nat)
deriving DecidableEq

/-- Modelled from the spec: an exported update, the new page set produced for
one (user, schema) by exportUpdates (spec section 4.5). -/
structure Update where
  userId : UserId
  schemaId : SchemaId
  pages : List PageData
deriving DecidableEq

/-! ## Association-list helpers used by the store -/

/-- Modelled from the spec: lookup in a key-indexed association list. -/
def alookup {α : Type} (l : List (Nat × α)) (k : Nat) : Option α :=
  (l.find? (fun p => p.1 == k)).map Prod.snd

/-- Modelled from the spec: insert-or-update in a key-indexed association
list, preserving the position of an existing entry and appending a new one. -/
def upsertA {α : Type} : List (Nat × α) → Nat → (Option α → α) → List (Nat × α)
  | [], k, f => [(k, f none)]
  | (y, v) :: rest, k, f =>
    if y == k then (y, f (some v)) :: rest else (y, v) :: upsertA rest k f

/-! ## Graph State Store operations (spec section 4.5) -/

/-- Modelled from the spec: the empty per-(user, schema) graph. -/
def emptyUSG : UserSchemaGraph := ⟨[], [], []⟩

/-- Modelled from the spec: the empty user graph, created on the first
successful action or data load for a user (spec section 3). -/
def emptyUserGraph : UserGraph := ⟨[], [], []⟩

/-- Modelled from the spec: graph_state_with_capacity; a request larger than
the Environment's configured maximum clamps down to that maximum rather than
erroring (spec sections 3, 8). -/
def withCapacity (env : Environment) (c : Nat) : GraphState :=
  ⟨env, min c env.capacityLimit, []⟩

/-- Modelled from the spec: initialize_graph_state, taking the Environment's
configured maximum as the capacity. -/
def newState (env : Environment) : GraphState :=
  ⟨env, env.capacityLimit, []⟩

/-- Modelled from the spec: graph_state_get_capacity. -/
def getCapacity (s : GraphState) : Nat :=
  s.capacity

/-- Modelled from the spec: lookup of a user's graph in the store. -/
def lookupUser (s : GraphState) (x : UserId) : Option UserGraph :=
  alookup s.users x

/-- Modelled from the spec: graph_contains_user (spec section 4.5). -/
def containsUser (s : GraphState) (x : UserId) : Bool :=
  (lookupUser s x).isSome

/-- Modelled from the spec: graph_users_count (spec section 4.5). -/
def usersCount (s : GraphState) : Nat :=
  s.users.length

/-- Modelled from the spec: graph_remove_user deletes the user graph
entirely, pages and pending both discarded; removing a non-existent user is a
no-op, not an error (spec section 4.5). -/
def removeUser (s : GraphState) (x : UserId) : GraphState :=
  { s with users := s.users.filter (fun p => p.1 != x) }

/-- Modelled from the spec: decoding of one imported page, opening it first
through the crypto layer when the schema is private; decryption failure is
DecryptionFailed and codec failure is MalformedPage, two distinct errors
(spec sections 4.3, 4.4). -/
def decodeOnePage (priv : PrivacyType) (ks : List GraphKeyPair) (p : PageData) :
    Except GraphError (List Connection) :=
  match priv with
  | .Public =>
    match decodePage p.rawBytes with
    | none => .error .MalformedPage
    | some cs => .ok cs
  | .Private =>
    match openPage p.rawBytes ks with
    | none => .error .DecryptionFailed
    | some plain =>
      match decodePage plain with
      | none => .error .MalformedPage
      | some cs => .ok cs

/-- Modelled from the spec: decoding of all of a bundle's pages; the first
failing page fails the whole bundle (spec section 4.4). -/
def decodeBundlePages (priv : PrivacyType) (ks : List GraphKeyPair) :
    List PageData → Except GraphError (List Connection)
  | [] => .ok []
  | p :: ps =>
    match decodeOnePage priv ks p with
    | .error e => .error e
    | .ok cs =>
      match decodeBundlePages priv ks ps with
      | .error e => .error e
      | .ok rest => .ok (cs ++ rest)

/-- Modelled from the spec: committing one successfully validated bundle,
replacing the (user, schema) entry per bundle (spec section 9, replace-per-
bundle) and installing the bundle's key set. -/
def commitBundle (s : GraphState) (b : ImportBundle) (conns : List Connection) : GraphState :=
  { s with users := upsertA s.users b.userId (fun og =>
      let g := og.getD emptyUserGraph
      { schemas := upsertA g.schemas b.schemaId (fun _ => ⟨b.pages, conns, []⟩),
        keys := b.dsnpKeys,
        pendingKeys := g.pendingKeys }) }

/-- Modelled from the spec: import of one bundle; schema validation comes
first (spec section 4.1), a brand-new user exceeding capacity fails with
CapacityExceeded (spec section 4.5), key formats are validated before any
cryptographic operation (spec section 4.3), and the bundle is rejected
atomically on any page failure (spec section 4.4). -/
def importOne (s : GraphState) (b : ImportBundle) : Except GraphError GraphState :=
  match resolveSchema s.env b.schemaId with
  | none => .error .InvalidSchemaId
  | some cfg =>
    if containsUser s b.userId = false ∧ s.capacity ≤ usersCount s then
      .error .CapacityExceeded
    else if validKeyPairsPub b.keyPairs = false then .error .InvalidPublicKey
    else if validKeyPairsSec b.keyPairs = false then .error .InvalidSecretKey
    else
      match decodeBundlePages cfg.privacy b.keyPairs b.pages with
      | .error e => .error e
      | .ok conns => .ok (commitBundle s b conns)

/-- Modelled from the spec: graph_import_users_data over a list of bundles;
each bundle is all-or-nothing, a failing bundle reports its error and leaves
the state as it was before that bundle (spec section 7). -/
def importMany (s : GraphState) : List ImportBundle → GraphState × Option GraphError
  | [] => (s, none)
  | b :: bs =>
    match importOne s b with
    | .error e => (s, some e)
    | .ok s' => importMany s' bs

/-- Modelled from the spec: appending one diff operation to the pending diff
of one schema graph. -/
def pushUSG (u : UserSchemaGraph) (op : DiffOp) : UserSchemaGraph :=
  { u with pending := u.pending ++ [op] }

/-- Modelled from the spec: appending one diff operation to the pending diff
of the given schema inside one user graph, auto-creating the schema entry as
needed. -/
def pushUG (g : UserGraph) (sid : SchemaId) (op : DiffOp) : UserGraph :=
  { g with schemas := upsertA g.schemas sid (fun ou => pushUSG (ou.getD emptyUSG) op) }

/-- Modelled from the spec: appending one diff operation to the pending diff
of a (user, schema) pair, auto-creating empty state as needed (spec
section 4.5). -/
def pushDiff (s : GraphState) (o : UserId) (sid : SchemaId) (op : DiffOp) : GraphState :=
  { s with users := upsertA s.users o (fun og => pushUG (og.getD emptyUserGraph) sid op) }

/-- Modelled from the spec: application of one action; Connect and Disconnect
append to the PendingDiff of the owner without touching pages, AddGraphKey
appends a pending key, and an unresolvable schema id fails before touching
anything (spec sections 4.1, 4.4, 4.5). -/
def applyAction (s : GraphState) : Action → Except GraphError GraphState
  | .connect o sid t =>
    match resolveSchema s.env sid with
    | none => .error .InvalidSchemaId
    | some _ => .ok (pushDiff s o sid (.connect ⟨t, 0⟩))
  | .disconnect o sid t =>
    match resolveSchema s.env sid with
    | none => .error .InvalidSchemaId
    | some _ => .ok (pushDiff s o sid (.disconnect t))
  | .addGraphKey o k =>
    if k.length = keyLen then
      .ok { s with users := upsertA s.users o (fun og =>
        let g := og.getD emptyUserGraph
        { g with pendingKeys := g.pendingKeys ++ [k] }) }
    else .error .InvalidPublicKey

/-- Modelled from the spec: graph_apply_actions routes each action in order;
the batch fails on the first failing action (all-or-nothing batch policy,
the policy recommended by spec section 9). -/
def applyActions (s : GraphState) : List Action → Except GraphError GraphState
  | [] => .ok s
  | a :: rest =>
    match applyAction s a with
    | .error e => .error e
    | .ok s' => applyActions s' rest

/-- Modelled from the spec: applying one pending-diff operation to a resolved
connection list; a duplicate Connect is absorbed so a connection never
appears twice (spec section 3), and Disconnect removes the edge. -/
def applyDiffOp (cs : List Connection) : DiffOp → List Connection
  | .connect c => if cs.any (fun d => d.target == c.target) then cs else cs ++ [c]
  | .disconnect t => cs.filter (fun d => d.target != t)

/-- Modelled from the spec: the merged view of pages plus pending diff,
pending operations applied in the order issued (spec sections 3, 4.4). -/
def mergedView (u : UserSchemaGraph) : List Connection :=
  u.pending.foldl applyDiffOp u.connections

/-- Modelled from the spec: graph_get_connections_for_user reads the merged
view without mutating state; a user with no state yields an error, not an
empty success (observed contract of the c_example harness). -/
def getConnectionsForUser (s : GraphState) (x : UserId) (schemaFilter : Option SchemaId)
    (includeKeys : Bool) : Except GraphError (List Connection) :=
  match lookupUser s x with
  | none => .error .UserNotFound
  | some g =>
    match schemaFilter with
    | none => .ok ((g.schemas.map (fun p => mergedView p.2)).flatten)
    | some sid =>
      match resolveSchema s.env sid with
      | none => .error .InvalidSchemaId
      | some _ => .ok (mergedView ((alookup g.schemas sid).getD emptyUSG))

/-- Modelled from the spec: graph_get_public_keys; a user with no state
yields a successful empty key list (observed contract of the c_example
harness). -/
def getPublicKeys (s : GraphState) (x : UserId) : Except GraphError (List (List Nat)) :=
  .ok (((lookupUser s x).map UserGraph.keys).getD [])

/-! ## Export (spec sections 4.4, 4.5)

Export merges each pending diff into the resolved connection set, re-encodes
through the Page Codec (splitting across pages under the maxPageBytes
budget, page ids monotonically assigned), clears pending, and returns the
produced page sets. -/

/-- Modelled from the spec: fuel-indexed splitting of a connection list into
chunks of at most k+1 connections, so each page stays within the size
budget. -/
def splitChunksFuel (k : Nat) : Nat → List Connection → List (List Connection)
  | _, [] => []
  | 0, _ :: _ => []
  | fuel + 1, c :: cs => (c :: cs.take k) :: splitChunksFuel k fuel (cs.drop k)

/-- Modelled from the spec: splitting a connection list into page-sized
chunks of at most k+1 connections each. -/
def splitChunks (k : Nat) (L : List Connection) : List (List Connection) :=
  splitChunksFuel k L.length L

/-- Modelled from the spec: encoding a merged connection set into pages under
the size budget; a budget that cannot fit even a single 16-byte record fails
loudly with PageTooLarge rather than silently dropping connections (spec
section 4.2). -/
def encodeSchemaPages (maxBytes : Nat) (L : List Connection) :
    Except GraphError (List PageData) :=
  if 16 ≤ maxBytes then
    .ok (((splitChunks (maxBytes / 16 - 1) L).enum).map
      (fun pr => ⟨pr.1, encodePage pr.2, 0⟩))
  else if L.isEmpty then .ok []
  else .error .PageTooLarge

/-- Modelled from the spec: the successfully exported form of one
(user, schema) graph: pending merged into the connection set, re-encoded
pages, pending cleared (spec section 4.4). -/
def exportedUSG (maxBytes : Nat) (u : UserSchemaGraph) : UserSchemaGraph :=
  ⟨((splitChunks (maxBytes / 16 - 1) (mergedView u)).enum).map
      (fun pr => ⟨pr.1, encodePage pr.2, 0⟩),
    mergedView u, []⟩

/-- Modelled from the spec: export of one (user, schema) graph; pending is
cleared only after a successful re-encode (spec section 4.4). -/
def exportUserSchema (maxBytes : Nat) (u : UserSchemaGraph) :
    Except GraphError UserSchemaGraph :=
  match encodeSchemaPages maxBytes (mergedView u) with
  | .error e => .error e
  | .ok ps => .ok ⟨ps, mergedView u, []⟩

/-- Modelled from the spec: export across all schemas of one user. -/
def exportSchemas (maxBytes : Nat) :
    List (SchemaId × UserSchemaGraph) → Except GraphError (List (SchemaId × UserSchemaGraph))
  | [] => .ok []
  | (sid, u) :: rest =>
    match exportUserSchema maxBytes u with
    | .error e => .error e
    | .ok u' =>
      match exportSchemas maxBytes rest with
      | .error e => .error e
      | .ok rest' => .ok ((sid, u') :: rest')

/-- Modelled from the spec: the successfully exported form of one user graph,
newly issued key material merged into the append-only key list. -/
def exportedUser (maxBytes : Nat) (g : UserGraph) : UserGraph :=
  ⟨g.schemas.map (fun p => (p.1, exportedUSG maxBytes p.2)),
    g.keys ++ g.pendingKeys, []⟩

/-- Modelled from the spec: export across all users, collecting every
produced page set; a bulk operation, not per-user (spec section 4.5). -/
def exportUsers (maxBytes : Nat) :
    List (UserId × UserGraph) →
      Except GraphError (List (UserId × UserGraph) × List Update)
  | [] => .ok ([], [])
  | (x, g) :: rest =>
    match exportSchemas maxBytes g.schemas with
    | .error e => .error e
    | .ok schemas' =>
      match exportUsers maxBytes rest with
      | .error e => .error e
      | .ok (rest', ups) =>
        .ok ((x, ⟨schemas', g.keys ++ g.pendingKeys, []⟩) :: rest',
          (schemas'.map (fun p => ⟨x, p.1, p.2.pages⟩)) ++ ups)

/-- Modelled from the spec: graph_export_updates flushes every dirty user
graph and returns the union of all produced pages (spec section 4.5). -/
def exportUpdates (s : GraphState) : Except GraphError (GraphState × List Update) :=
  match exportUsers s.env.maxPageBytes s.users with
  | .error e => .error e
  | .ok (us, ups) => .ok ({ s with users := us }, ups)

/-- Modelled from the spec: the concrete Environment used for witness
scenarios, with one public-follow schema (id 1) and one private-friendship
schema (id 2), mirroring the schema ids exercised by the c_example tests. -/
def envW : Environment :=
  ⟨100, 1024, 100, 1024,
    [(1, ⟨1, ConnKind.Follow, PrivacyType.Public⟩),
     (2, ⟨1, ConnKind.Friendship, PrivacyType.Private⟩)]⟩

/-- Modelled from the spec: the base connection set {2, 3, 4, 5} imported for
user 1 in the c_example scenario. -/
def baseConnsA : List Connection := [⟨2, 0⟩, ⟨3, 0⟩, ⟨4, 0⟩, ⟨5, 0⟩]

/-- Modelled from the spec: the base connection set {10, 11, 12, 13} imported
for user 2 in the c_example scenario. -/
def baseConnsB : List Connection := [⟨10, 0⟩, ⟨11, 0⟩, ⟨12, 0⟩, ⟨13, 0⟩]

/-- Modelled from the spec: user 1's public-follow import bundle. -/
def bundleA : ImportBundle := ⟨1, 1, [], [], [⟨1, encodePage baseConnsA, 10⟩]⟩

/-- Modelled from the spec: user 2's public-follow import bundle. -/
def bundleB : ImportBundle := ⟨2, 1, [], [], [⟨1, encodePage baseConnsB, 10⟩]⟩

/-- Modelled from the spec: the state after importing the two users. -/
def sImported : GraphState := (importMany (newState envW) [bundleA, bundleB]).1

/-- Modelled from the spec: the action batch
[AddGraphKey, Connect(10), Disconnect(3)] of the c_example scenario. -/
def actsScenario : List Action :=
  [.addGraphKey 1 (List.replicate 32 7), .connect 1 1 10, .disconnect 1 1 3]

/-- Modelled from the spec: the state after applying the action batch. -/
def sActed : GraphState := ((applyActions sImported actsScenario).toOption).getD sImported

/-- Modelled from the spec: the expected resolved connection list after the
batch, {2, 10, 4, 5} via the merged pending view. -/
def scenarioConns : List Connection := [⟨2, 0⟩, ⟨4, 0⟩, ⟨5, 0⟩, ⟨10, 0⟩]

/-- Modelled from the spec: an import bundle carrying a one-byte (truncated,
malformed) page. -/
def badPageBundle : ImportBundle := ⟨1, 1, [], [], [⟨1, [1], 10⟩]⟩

/-- Modelled from the spec: an import bundle with the out-of-range schema id
1000 exercised by the test harness. -/
def badSchemaBundle : ImportBundle := ⟨1, 1000, [], [], [⟨1, [1], 10⟩]⟩

/-- Modelled from the spec: an import bundle with a 2-byte public key, shorter
than the 32 bytes expected for its declared key type. -/
def badPubKeyBundle : ImportBundle :=
  ⟨1, 1, [⟨[0, 1], none⟩], [], [⟨1, encodePage baseConnsA, 10⟩]⟩

/-- Modelled from the spec: a private-schema import bundle whose supplied key
pair cannot open its sealed page. -/
def wrongKeyBundle : ImportBundle :=
  ⟨123, 2, [⟨List.replicate 32 1, some (List.replicate 32 2)⟩], [],
    [⟨1, List.replicate 40 0, 10⟩]⟩

/-- Modelled from the spec: the sealed page of the wrong-key bundle. -/
def wrongKeyPage : PageData := ⟨1, List.replicate 40 0, 10⟩

/-- Modelled from the spec: a small store holding users 1 and 5, used to
witness user removal. -/
def sTwoUsers : GraphState := ⟨envW, 100, [(1, emptyUserGraph), (5, emptyUserGraph)]⟩

theorem natToLE_length (n x : Nat) : (natToLE n x).length = n := by
  induction n generalizing x with
  | zero => rfl
  | succ n ih => simp [natToLE, ih]

theorem leToNat_natToLE (n x : Nat) : leToNat (natToLE n x) = x % 256 ^ n := by
  induction n generalizing x with
  | zero => simp [natToLE, leToNat, Nat.mod_one]
  | succ n ih =>
    have h : (256 : Nat) ^ (n + 1) = 256 * 256 ^ n := by ring
    rw [natToLE, leToNat, ih, h, Nat.mod_mul]

theorem encodeConn_length (c : Connection) : (encodeConn c).length = 16 := by
  simp [encodeConn, natToLE_length]

theorem decodeChunks_succ_cons (f b : Nat) (rest : List Nat) :
    decodeChunks (f + 1) (b :: rest) =
      if (b :: rest).length < 16 then none
      else
        match decodeChunks f ((b :: rest).drop 16) with
        | none => none
        | some cs =>
          some (⟨leToNat ((b :: rest).take 8), leToNat (((b :: rest).drop 8).take 8)⟩ :: cs) :=
  rfl

theorem decodeChunks_encodePage (L : List Connection) (fuel : Nat)
    (hfuel : (encodePage L).length ≤ fuel)
    (hb : ∀ c ∈ L, c.target < 2 ^ 64 ∧ c.keyIdx < 2 ^ 64) :
    decodeChunks fuel (encodePage L) = some L := by
  induction L generalizing fuel with
  | nil => cases fuel <;> simp [encodePage, decodeChunks]
  | cons c L ih =>
    have hA : (natToLE 8 c.target).length = 8 := natToLE_length 8 c.target
    have hB : (natToLE 8 c.keyIdx).length = 8 := natToLE_length 8 c.keyIdx
    have henc : encodePage (c :: L) =
        natToLE 8 c.target ++ (natToLE 8 c.keyIdx ++ encodePage L) := by
      simp [encodePage, encodeConn]
    have hlen : (encodePage (c :: L)).length = 16 + (encodePage L).length := by
      rw [henc]; simp [hA, hB]; omega
    cases fuel with
    | zero =>
      exfalso
      rw [hlen] at hfuel
      omega
    | succ f =>
      -- expose the head byte of the encoded page
      rcases hshape : natToLE 8 c.target with _ | ⟨a0, A'⟩
      · rw [hshape] at hA; simp at hA
      · have hcons : encodePage (c :: L) =
            a0 :: (A' ++ (natToLE 8 c.keyIdx ++ encodePage L)) := by
          rw [henc, hshape]; rfl
        rw [hcons, decodeChunks_succ_cons]
        have hlen2 : (a0 :: (A' ++ (natToLE 8 c.keyIdx ++ encodePage L))).length =
            16 + (encodePage L).length := by
          rw [← hcons, hlen]
        rw [if_neg (by omega)]
        have hback : a0 :: (A' ++ (natToLE 8 c.keyIdx ++ encodePage L)) =
            natToLE 8 c.target ++ (natToLE 8 c.keyIdx ++ encodePage L) := by
          rw [hshape]; rfl
        have htake8 : (a0 :: (A' ++ (natToLE 8 c.keyIdx ++ encodePage L))).take 8 =
            natToLE 8 c.target := by
          rw [hback, List.take_append_of_le_length (by omega), List.take_of_length_le (by omega)]
        have hdrop8 : (a0 :: (A' ++ (natToLE 8 c.keyIdx ++ encodePage L))).drop 8 =
            natToLE 8 c.keyIdx ++ encodePage L := by
          rw [hback]
          have h := List.drop_left (natToLE 8 c.target) (natToLE 8 c.keyIdx ++ encodePage L)
          rwa [hA] at h
        have hdrop8take : ((a0 :: (A' ++ (natToLE 8 c.keyIdx ++ encodePage L))).drop 8).take 8 =
            natToLE 8 c.keyIdx := by
          rw [hdrop8, List.take_append_of_le_length (by omega),
            List.take_of_length_le (by omega)]
        have hdrop16 : (a0 :: (A' ++ (natToLE 8 c.keyIdx ++ encodePage L))).drop 16 =
            encodePage L := by
          rw [hback, ← List.append_assoc]
          have h := List.drop_left (natToLE 8 c.target ++ natToLE 8 c.keyIdx) (encodePage L)
          rwa [show (natToLE 8 c.target ++ natToLE 8 c.keyIdx).length = 16 by
            simp [hA, hB]] at h
        rw [hdrop16, ih f (by omega) (fun d hd => hb d (List.mem_cons_of_mem c hd))]
        have hct : c.target < 2 ^ 64 := (hb c (List.mem_cons_self c L)).1
        have hck : c.keyIdx < 2 ^ 64 := (hb c (List.mem_cons_self c L)).2
        have h256 : (256 : Nat) ^ 8 = 2 ^ 64 := by norm_num
        have hval1 : leToNat ((a0 :: (A' ++ (natToLE 8 c.keyIdx ++ encodePage L))).take 8) =
            c.target := by
          rw [htake8, leToNat_natToLE, h256, Nat.mod_eq_of_lt hct]
        have hval2 :
            leToNat (((a0 :: (A' ++ (natToLE 8 c.keyIdx ++ encodePage L))).drop 8).take 8) =
            c.keyIdx := by
          rw [hdrop8take, leToNat_natToLE, h256, Nat.mod_eq_of_lt hck]
        rw [hval1, hval2]

theorem decodePage_encodePage (L : List Connection)
    (hb : ∀ c ∈ L, c.target < 2 ^ 64 ∧ c.keyIdx < 2 ^ 64) :
    decodePage (encodePage L) = some L :=
  decodeChunks_encodePage L (encodePage L).length (Nat.le_refl _) hb

theorem alookup_upsertA_self {α : Type} (l : List (Nat × α)) (k : Nat) (f : Option α → α) :
    alookup (upsertA l k f) k = some (f (alookup l k)) := by
  induction l with
  | nil => simp [upsertA, alookup, List.find?]
  | cons p rest ih =>
    obtain ⟨y, v⟩ := p
    by_cases hy : y = k
    · subst hy
      simp [upsertA, alookup, List.find?]
    · have hby : (y == k) = false := by simp [hy]
      simp only [upsertA, hby, Bool.false_eq_true, if_false]
      simp only [alookup, List.find?, hby] at ih ⊢
      exact ih

theorem alookup_upsertA_ne {α : Type} (l : List (Nat × α)) (k k' : Nat) (f : Option α → α)
    (h : k' ≠ k) : alookup (upsertA l k f) k' = alookup l k' := by
  induction l with
  | nil =>
    have hk : (k == k') = false := by
      simp only [beq_eq_false_iff_ne, ne_eq]
      exact fun hh => h hh.symm
    simp [upsertA, alookup, List.find?, hk]
  | cons p rest ih =>
    obtain ⟨y, v⟩ := p
    by_cases hy : y = k
    · subst hy
      have hk : (y == k') = false := by
        simp only [beq_eq_false_iff_ne, ne_eq]
        exact fun hh => h hh.symm
      simp [upsertA, alookup, List.find?, hk]
    · have hby : (y == k) = false := by simp [hy]
      by_cases hy' : y = k'
      · subst hy'
        simp [upsertA, alookup, List.find?, hby]
      · have hby' : (y == k') = false := by simp [hy']
        simp only [upsertA, hby, Bool.false_eq_true, if_false]
        simp only [alookup, List.find?, hby'] at ih ⊢
        exact ih

theorem alookup_map_snd {α β : Type} (l : List (Nat × α)) (k : Nat) (f : α → β) :
    alookup (l.map (fun p => (p.1, f p.2))) k = (alookup l k).map f := by
  induction l with
  | nil => simp [alookup]
  | cons p rest ih =>
    obtain ⟨y, v⟩ := p
    by_cases hy : y = k
    · subst hy
      simp [alookup, List.find?]
    · have hby : (y == k) = false := by simp [hy]
      simp only [List.map, alookup, List.find?, hby] at ih ⊢
      exact ih

theorem exportUserSchema_ok (maxBytes : Nat) (u : UserSchemaGraph) (h16 : 16 ≤ maxBytes) :
    exportUserSchema maxBytes u = .ok (exportedUSG maxBytes u) := by
  simp [exportUserSchema, encodeSchemaPages, if_pos h16, exportedUSG]

theorem exportSchemas_ok (maxBytes : Nat) (h16 : 16 ≤ maxBytes) :
    ∀ gs : List (SchemaId × UserSchemaGraph),
      exportSchemas maxBytes gs = .ok (gs.map (fun p => (p.1, exportedUSG maxBytes p.2)))
  | [] => rfl
  | (sid, u) :: rest => by
    rw [exportSchemas, exportUserSchema_ok maxBytes u h16,
      exportSchemas_ok maxBytes h16 rest]
    rfl

theorem exportUsers_ok (maxBytes : Nat) (h16 : 16 ≤ maxBytes) :
    ∀ us : List (UserId × UserGraph),
      ∃ ups, exportUsers maxBytes us =
        .ok (us.map (fun p => (p.1, exportedUser maxBytes p.2)), ups)
  | [] => ⟨[], rfl⟩
  | (x, g) :: rest => by
    obtain ⟨ups, hups⟩ := exportUsers_ok maxBytes h16 rest
    refine ⟨((g.schemas.map (fun p => (p.1, exportedUSG maxBytes p.2))).map
      (fun p => ⟨x, p.1, p.2.pages⟩)) ++ ups, ?_⟩
    rw [exportUsers, exportSchemas_ok maxBytes h16 g.schemas, hups]
    rfl

theorem exportUpdates_ok (s : GraphState) (h16 : 16 ≤ s.env.maxPageBytes) :
    ∃ ups, exportUpdates s =
      .ok ({ s with
              users := s.users.map (fun p => (p.1, exportedUser s.env.maxPageBytes p.2)) },
        ups) := by
  obtain ⟨ups, hups⟩ := exportUsers_ok s.env.maxPageBytes h16 s.users
  exact ⟨ups, by rw [exportUpdates, hups]⟩

theorem pushDiff_env (s : GraphState) (o : UserId) (sid : SchemaId) (op : DiffOp) :
    (pushDiff s o sid op).env = s.env := rfl

theorem lookupUser_pushDiff_self (s : GraphState) (o : UserId) (sid : SchemaId) (op : DiffOp) :
    lookupUser (pushDiff s o sid op) o =
      some (pushUG ((lookupUser s o).getD emptyUserGraph) sid op) := by
  simp [lookupUser, pushDiff, alookup_upsertA_self]

theorem alookup_pushUG_self (g : UserGraph) (sid : SchemaId) (op : DiffOp) :
    alookup (pushUG g sid op).schemas sid =
      some (pushUSG ((alookup g.schemas sid).getD emptyUSG) op) := by
  simp [pushUG, alookup_upsertA_self]

theorem mergedView_pushUSG (u : UserSchemaGraph) (op : DiffOp) :
    mergedView (pushUSG u op) = applyDiffOp (mergedView u) op := by
  simp [mergedView, pushUSG, List.foldl_append]

theorem mergedView_exportedUSG (maxBytes : Nat) (u : UserSchemaGraph) :
    mergedView (exportedUSG maxBytes u) = mergedView u := rfl

theorem any_filter_target_ne (cs : List Connection) (b : UserId) :
    ((cs.filter (fun d => d.target != b)).any (fun d => d.target == b)) = false := by
  induction cs with
  | nil => rfl
  | cons c cs ih =>
    by_cases hc : c.target = b
    · simp only [List.filter_cons, hc, bne_self_eq_false, Bool.false_eq_true, if_false]
      exact ih
    · have hb : (c.target != b) = true := by simp [hc]
      have hb2 : (c.target == b) = false := by simp [hc]
      simp only [List.filter_cons, hb, if_true, List.any_cons, hb2, Bool.false_or]
      exact ih

theorem decodeBundlePages_public_err (ks : List GraphKeyPair) :
    ∀ pages : List PageData, (∃ p ∈ pages, decodePage p.rawBytes = none) →
      decodeBundlePages .Public ks pages = .error .MalformedPage := by
  intro pages
  induction pages with
  | nil => rintro ⟨p, hp, -⟩; simp at hp
  | cons p ps ih =>
    rintro ⟨q, hq, hqd⟩
    rcases hd : decodePage p.rawBytes with - | cs
    · simp [decodeBundlePages, decodeOnePage, hd]
    · rcases List.mem_cons.mp hq with rfl | hq'
      · rw [hd] at hqd; exact absurd hqd (by simp)
      · simp [decodeBundlePages, decodeOnePage, hd, ih ⟨q, hq', hqd⟩]

theorem importMany_single_err (s : GraphState) (b : ImportBundle) (e : GraphError)
    (h : importOne s b = .error e) : importMany s [b] = (s, some e) := by
  simp [importMany, h]

theorem find?_filter_beq_none (l : List (UserId × UserGraph)) (x : UserId) :
    (l.filter (fun p => p.1 != x)).find? (fun p => p.1 == x) = none := by
  induction l with
  | nil => rfl
  | cons p l ih =>
    obtain ⟨y, g⟩ := p
    by_cases hy : y = x
    · simp only [List.filter_cons]
      have : ((y, g).1 != x) = false := by simp [hy]
      rw [this]
      simp only [Bool.false_eq_true, if_false]
      exact ih
    · have h1 : ((y, g).1 != x) = true := by simp [hy]
      have h2 : ((y, g).1 == x) = false := by simp [hy]
      simp only [List.filter_cons, h1, if_true, List.find?, h2]
      exact ih

theorem filter_ne_idem (l : List (UserId × UserGraph)) (x : UserId) :
    (l.filter (fun p => p.1 != x)).filter (fun p => p.1 != x) =
      l.filter (fun p => p.1 != x) := by
  rw [List.filter_filter]
  simp

theorem length_filter_ne_nodup (l : List (UserId × UserGraph)) (x : UserId)
    (hnd : (l.map Prod.fst).Nodup) :
    (l.filter (fun p => p.1 != x)).length =
      l.length - (if (l.find? (fun p => p.1 == x)).isSome then 1 else 0) := by
  induction l with
  | nil => rfl
  | cons p l ih =>
    obtain ⟨y, g⟩ := p
    rw [List.map_cons, List.nodup_cons] at hnd
    obtain ⟨hy, hnd'⟩ := hnd
    by_cases hyx : y = x
    · subst hyx
      have hfa : ∀ q ∈ l, (q.1 != y) = true := by
        intro q hq
        have hq1 : q.1 ∈ l.map Prod.fst := List.mem_map_of_mem Prod.fst hq
        have : q.1 ≠ y := by
          intro hh
          rw [hh] at hq1
          exact hy hq1
        simp [this]
      have hkeep : l.filter (fun p => p.1 != y) = l := List.filter_eq_self.mpr hfa
      have hdrop : (((y, g) : UserId × UserGraph).1 != y) = false := by simp
      have hfind : (((y, g) : UserId × UserGraph).1 == y) = true := by simp
      simp [List.filter_cons, hdrop, hkeep, List.find?, hfind]
    · have h1 : (((y, g) : UserId × UserGraph).1 != x) = true := by simp [hyx]
      have h2 : (((y, g) : UserId × UserGraph).1 == x) = false := by simp [hyx]
      simp only [List.filter_cons, h1, if_true, List.length_cons, List.find?, h2,
        ih hnd']
      by_cases hs : (l.find? (fun p => p.1 == x)).isSome = true
      · obtain ⟨q, hq⟩ := Option.isSome_iff_exists.mp hs
        have hmem := List.mem_of_find?_eq_some hq
        have hlen : 1 ≤ l.length := List.length_pos.mpr (List.ne_nil_of_mem hmem)
        rw [if_pos hs]
        omega
      · rw [if_neg hs]
        omega

theorem pushTwice_export_query (s : GraphState) (a : UserId) (sid : SchemaId)
    (cfg : SchemaConfig) (hres : resolveSchema s.env sid = some cfg)
    (h16 : 16 ≤ s.env.maxPageBytes) (op1 op2 : DiffOp) :
    ∃ s2 ups,
      exportUpdates (pushDiff (pushDiff s a sid op1) a sid op2) = .ok (s2, ups) ∧
      getConnectionsForUser s2 a (some sid) true =
        .ok (applyDiffOp (applyDiffOp
          (mergedView
            ((alookup ((lookupUser s a).getD emptyUserGraph).schemas sid).getD emptyUSG))
          op1) op2) := by
  set s1 := pushDiff (pushDiff s a sid op1) a sid op2 with hs1
  have henv1 : s1.env = s.env := rfl
  obtain ⟨ups, hexp⟩ := exportUpdates_ok s1 (henv1 ▸ h16)
  refine ⟨_, ups, hexp, ?_⟩
  have hlu1 : lookupUser s1 a =
      some (pushUG (pushUG ((lookupUser s a).getD emptyUserGraph) sid op1) sid op2) := by
    rw [hs1, lookupUser_pushDiff_self, lookupUser_pushDiff_self]
    rfl
  set G0 := (lookupUser s a).getD emptyUserGraph with hG0
  set G := pushUG (pushUG G0 sid op1) sid op2 with hG
  set mB := s.env.maxPageBytes with hmB
  have hlu2 : lookupUser
      { s1 with users := s1.users.map (fun p => (p.1, exportedUser s1.env.maxPageBytes p.2)) }
      a = some (exportedUser mB G) := by
    show alookup (s1.users.map (fun p => (p.1, exportedUser s1.env.maxPageBytes p.2))) a = _
    rw [alookup_map_snd]
    show (lookupUser s1 a).map _ = _
    rw [hlu1]
    rfl
  have hsch : alookup (exportedUser mB G).schemas sid =
      some (exportedUSG mB (pushUSG (pushUSG
        ((alookup G0.schemas sid).getD emptyUSG) op1) op2)) := by
    show alookup (G.schemas.map (fun p => (p.1, exportedUSG mB p.2))) sid = _
    rw [alookup_map_snd, hG, alookup_pushUG_self, alookup_pushUG_self]
    rfl
  rw [getConnectionsForUser, hlu2]
  simp only [hres, hsch, Option.getD_some, mergedView_exportedUSG, mergedView_pushUSG]
  rw [henv1, hres]

theorem applyActions_connect_disconnect (s : GraphState) (a : UserId) (sid : SchemaId)
    (b : UserId) (cfg : SchemaConfig) (hres : resolveSchema s.env sid = some cfg) :
    applyActions s [Action.connect a sid b, Action.disconnect a sid b] =
      .ok (pushDiff (pushDiff s a sid (.connect ⟨b, 0⟩)) a sid (.disconnect b)) := by
  simp [applyActions, applyAction, hres, pushDiff_env]

theorem applyActions_disconnect_connect (s : GraphState) (a : UserId) (sid : SchemaId)
    (b : UserId) (cfg : SchemaConfig) (hres : resolveSchema s.env sid = some cfg) :
    applyActions s [Action.disconnect a sid b, Action.connect a sid b] =
      .ok (pushDiff (pushDiff s a sid (.disconnect b)) a sid (.connect ⟨b, 0⟩)) := by
  simp [applyActions, applyAction, hres, pushDiff_env]

theorem capacity_ok_cond (s : GraphState) (u : UserId)
    (hcap : containsUser s u = true ∨ usersCount s < s.capacity) :
    ¬(containsUser s u = false ∧ s.capacity ≤ usersCount s) := by
  rintro ⟨h1, h2⟩
  rcases hcap with h | h
  · rw [h1] at h
    exact absurd h (by simp)
  · omega

theorem importOne_invalid_pub (s : GraphState) (b : ImportBundle) (cfg : SchemaConfig)
    (hres : resolveSchema s.env b.schemaId = some cfg)
    (hcap : containsUser s b.userId = true ∨ usersCount s < s.capacity)
    (hbad : validKeyPairsPub b.keyPairs = false) :
    importOne s b = .error .InvalidPublicKey := by
  simp only [importOne, hres]
  rw [if_neg (capacity_ok_cond s b.userId hcap), if_pos hbad]

/-- C1: after importing bundles for exactly two distinct users (four
public-follow connections each), usersCount returns 2 and containsUser on a
third, never-imported user id returns false; and after the action batch
[AddGraphKey, Connect(10), Disconnect(3)] against user 1's imported base
connection set {2, 3, 4, 5}, getConnectionsForUser for that user and schema
returns a connection list of length 4 whose target ids are exactly
{2, 10, 4, 5}. -/
theorem C1_import_and_actions_scenario :
    (importMany (newState envW) [bundleA, bundleB]).2 = none ∧
    usersCount sImported = 2 ∧
    containsUser sImported 3 = false ∧
    applyActions sImported actsScenario = .ok sActed ∧
    getConnectionsForUser sActed 1 (some 1) true = .ok scenarioConns ∧
    scenarioConns.length = 4 ∧
    scenarioConns.map Connection.target = [2, 4, 5, 10] ∧
    (scenarioConns.map Connection.target).toFinset = ({2, 10, 4, 5} : Finset Nat) :=
  ⟨rfl, rfl, rfl, rfl, rfl, rfl, rfl, by decide⟩

/-- C2: for every pair of users (a, b) and every resolvable schema, applying
Connect(a,b) then Disconnect(a,b) and then exporting yields an exported view
in which edge (a,b) is absent, while applying them in the reverse order
yields the edge present: pending-diff operations take effect in the order
they were issued. -/
theorem C2_diff_ordering (s : GraphState) (a b : UserId) (sid : SchemaId)
    (cfg : SchemaConfig) (hres : resolveSchema s.env sid = some cfg)
    (h16 : 16 ≤ s.env.maxPageBytes) :
    (∃ s1 s2 ups L,
      applyActions s [Action.connect a sid b, Action.disconnect a sid b] = .ok s1 ∧
      exportUpdates s1 = .ok (s2, ups) ∧
      getConnectionsForUser s2 a (some sid) true = .ok L ∧
      L.any (fun d => d.target == b) = false) ∧
    (∃ s1 s2 ups L,
      applyActions s [Action.disconnect a sid b, Action.connect a sid b] = .ok s1 ∧
      exportUpdates s1 = .ok (s2, ups) ∧
      getConnectionsForUser s2 a (some sid) true = .ok L ∧
      L.any (fun d => d.target == b) = true) := by
  constructor
  · obtain ⟨s2, ups, hexp, hq⟩ :=
      pushTwice_export_query s a sid cfg hres h16 (.connect ⟨b, 0⟩) (.disconnect b)
    refine ⟨_, s2, ups, _, applyActions_connect_disconnect s a sid b cfg hres, hexp, hq, ?_⟩
    exact any_filter_target_ne _ b
  · obtain ⟨s2, ups, hexp, hq⟩ :=
      pushTwice_export_query s a sid cfg hres h16 (.disconnect b) (.connect ⟨b, 0⟩)
    refine ⟨_, s2, ups, _, applyActions_disconnect_connect s a sid b cfg hres, hexp, hq, ?_⟩
    simp [applyDiffOp, any_filter_target_ne]

/-- C3: an import bundle for a resolvable public schema with valid key
formats whose pages include malformed or truncated raw bytes fails with the
MalformedPage error, and the store is left unchanged: no partial user state
is created or kept from that bundle. -/
theorem C3_malformed_page_import (s : GraphState) (b : ImportBundle) (cfg : SchemaConfig)
    (hres : resolveSchema s.env b.schemaId = some cfg)
    (hpub : cfg.privacy = PrivacyType.Public)
    (hkp : validKeyPairsPub b.keyPairs = true)
    (hks : validKeyPairsSec b.keyPairs = true)
    (hcap : containsUser s b.userId = true ∨ usersCount s < s.capacity)
    (hbad : ∃ p ∈ b.pages, decodePage p.rawBytes = none) :
    importOne s b = .error .MalformedPage ∧
    importMany s [b] = (s, some .MalformedPage) := by
  have h1 : importOne s b = .error .MalformedPage := by
    simp only [importOne, hres]
    rw [if_neg (capacity_ok_cond s b.userId hcap), if_neg (by simp [hkp]),
      if_neg (by simp [hks]), hpub, decodeBundlePages_public_err b.keyPairs b.pages hbad]
  exact ⟨h1, importMany_single_err s b _ h1⟩

/-- C4: an import bundle whose schema id does not resolve in the
Environment's schema table always fails with the InvalidSchemaId error, no
user entry is created, and the state is untouched regardless of the bundle's
pages or keys. -/
theorem C4_invalid_schema_import (s : GraphState) (b : ImportBundle)
    (hres : resolveSchema s.env b.schemaId = none) :
    importOne s b = .error .InvalidSchemaId ∧
    importMany s [b] = (s, some .InvalidSchemaId) ∧
    (∀ x, containsUser (importMany s [b]).1 x = containsUser s x) := by
  have h1 : importOne s b = .error .InvalidSchemaId := by simp [importOne, hres]
  have h2 := importMany_single_err s b _ h1
  exact ⟨h1, h2, fun x => by rw [h2]⟩

/-- C5: constructing a graph state with any requested capacity c against an
Environment whose configured maximum is m succeeds (the construction is
total, it cannot error), and the resulting capacity reported by
graph_state_get_capacity equals min c m: a request larger than m is clamped
down to m. -/
theorem C5_capacity_clamp (env : Environment) (c : Nat) :
    getCapacity (withCapacity env c) = min c env.capacityLimit := rfl

/-- C6: for every connection list L of 64-bit values that fits within
maxPageBytes, decoding the page produced by encoding L yields exactly L (so
in particular they are equal as sets), and decode is pure and deterministic:
identical page bytes always decode to identical connection lists. -/
theorem C6_roundtrip (L : List Connection) (maxB : Nat)
    (hfit : (encodePage L).length ≤ maxB)
    (hb : ∀ c ∈ L, c.target < 2 ^ 64 ∧ c.keyIdx < 2 ^ 64) :
    decodePage (encodePage L) = some L ∧
    ∀ bs1 bs2 : List Nat, bs1 = bs2 → decodePage bs1 = decodePage bs2 :=
  ⟨decodePage_encodePage L hb, fun _ _ h => by rw [h]⟩

/-- C7: for every user id x and every graph state (with well-formed, nodup
user keys), removing x twice equals removing it once and never produces an
error (removal is a total operation and a no-op on a non-existent user),
afterwards containsUser x is false, and x no longer counts in usersCount. -/
theorem C7_remove_idempotent (s : GraphState) (x : UserId)
    (hnd : (s.users.map Prod.fst).Nodup) :
    removeUser (removeUser s x) x = removeUser s x ∧
    containsUser (removeUser s x) x = false ∧
    usersCount (removeUser s x) = usersCount s - (if containsUser s x then 1 else 0) := by
  refine ⟨?_, ?_, ?_⟩
  · simp [removeUser, filter_ne_idem]
  · simp [containsUser, lookupUser, removeUser, alookup, find?_filter_beq_none]
  · have hc : containsUser s x = (s.users.find? (fun p => p.1 == x)).isSome := by
      simp [containsUser, lookupUser, alookup]
    simp only [usersCount, removeUser, hc]
    exact length_filter_ne_nodup s.users x hnd

/-- C8: an import bundle containing a key pair whose public key bytes do not
have the fixed length expected for the declared key type fails with the
InvalidPublicKey error before any cryptographic operation is attempted: the
same error results for every possible page content, and the store is left
unchanged. -/
theorem C8_invalid_public_key_import (s : GraphState) (b : ImportBundle) (cfg : SchemaConfig)
    (hres : resolveSchema s.env b.schemaId = some cfg)
    (hcap : containsUser s b.userId = true ∨ usersCount s < s.capacity)
    (hbad : validKeyPairsPub b.keyPairs = false) :
    importOne s b = .error .InvalidPublicKey ∧
    importMany s [b] = (s, some .InvalidPublicKey) ∧
    (∀ pages', importOne s { b with pages := pages' } = .error .InvalidPublicKey) := by
  have h1 : importOne s b = .error .InvalidPublicKey :=
    importOne_invalid_pub s b cfg hres hcap hbad
  exact ⟨h1, importMany_single_err s b _ h1,
    fun pages' => importOne_invalid_pub s { b with pages := pages' } cfg hres hcap hbad⟩

/-- C9: a private-schema import bundle whose supplied key material cannot
open the bundle's first sealed page fails with the DecryptionFailed error, an
error distinct from the Codec's MalformedPage error, and afterwards
containsUser for that bundle's user is false: no user state is created by
the failed import. -/
theorem C9_decryption_failed_import (s : GraphState) (b : ImportBundle) (cfg : SchemaConfig)
    (p : PageData) (ps : List PageData)
    (hres : resolveSchema s.env b.schemaId = some cfg)
    (hpriv : cfg.privacy = PrivacyType.Private)
    (hkp : validKeyPairsPub b.keyPairs = true)
    (hks : validKeyPairsSec b.keyPairs = true)
    (hnotin : containsUser s b.userId = false)
    (hcap : usersCount s < s.capacity)
    (hpages : b.pages = p :: ps)
    (hopen : openPage p.rawBytes b.keyPairs = none) :
    importOne s b = .error .DecryptionFailed ∧
    GraphError.DecryptionFailed ≠ GraphError.MalformedPage ∧
    containsUser (importMany s [b]).1 b.userId = false := by
  have h1 : importOne s b = .error .DecryptionFailed := by
    simp only [importOne, hres]
    rw [if_neg (capacity_ok_cond s b.userId (Or.inr hcap)), if_neg (by simp [hkp]),
      if_neg (by simp [hks]), hpriv, hpages]
    simp [decodeBundlePages, decodeOnePage, hopen]
  refine ⟨h1, by decide, ?_⟩
  rw [importMany_single_err s b _ h1]
  exact hnotin

/-- C10: for every user id with no imported or action-created state,
getConnectionsForUser returns an error (whose numeric code is below 1000)
rather than a successful empty list, whereas getPublicKeys for the same
unknown user returns success with an empty key list: the two queries treat
an unknown user asymmetrically. -/
theorem C10_unknown_user_asymmetry (s : GraphState) (x : UserId)
    (fl : Option SchemaId) (inc : Bool)
    (h : containsUser s x = false) :
    getConnectionsForUser s x fl inc = .error .UserNotFound ∧
    errorCode .UserNotFound < 1000 ∧
    getPublicKeys s x = .ok [] := by
  have hl : lookupUser s x = none := by
    rcases hh : lookupUser s x with - | g
    · rfl
    · rw [containsUser, hh] at h
      simp at h
  refine ⟨?_, by decide, ?_⟩
  · rw [getConnectionsForUser, hl]
  · rw [getPublicKeys, hl]
    rfl

/-- Witness for C2 at the concrete store newState envW with a = 1, b = 2 and
the public-follow schema 1. -/
theorem C2_diff_ordering_witness :
    (resolveSchema (newState envW).env 1 =
        some ⟨1, ConnKind.Follow, PrivacyType.Public⟩ ∧
      16 ≤ (newState envW).env.maxPageBytes) ∧
    ((∃ s1 s2 ups L,
        applyActions (newState envW) [Action.connect 1 1 2, Action.disconnect 1 1 2] =
          .ok s1 ∧
        exportUpdates s1 = .ok (s2, ups) ∧
        getConnectionsForUser s2 1 (some 1) true = .ok L ∧
        L.any (fun d => d.target == 2) = false) ∧
      (∃ s1 s2 ups L,
        applyActions (newState envW) [Action.disconnect 1 1 2, Action.connect 1 1 2] =
          .ok s1 ∧
        exportUpdates s1 = .ok (s2, ups) ∧
        getConnectionsForUser s2 1 (some 1) true = .ok L ∧
        L.any (fun d => d.target == 2) = true)) :=
  ⟨⟨by decide, by decide⟩,
    C2_diff_ordering (newState envW) 1 2 1 ⟨1, ConnKind.Follow, PrivacyType.Public⟩
      (by decide) (by decide)⟩

/-- Witness for C3 at the concrete bundle with a one-byte truncated page. -/
theorem C3_malformed_page_import_witness :
    (resolveSchema (newState envW).env badPageBundle.schemaId =
        some ⟨1, ConnKind.Follow, PrivacyType.Public⟩ ∧
      (⟨1, ConnKind.Follow, PrivacyType.Public⟩ : SchemaConfig).privacy =
        PrivacyType.Public ∧
      validKeyPairsPub badPageBundle.keyPairs = true ∧
      validKeyPairsSec badPageBundle.keyPairs = true ∧
      usersCount (newState envW) < (newState envW).capacity ∧
      (∃ p ∈ badPageBundle.pages, decodePage p.rawBytes = none)) ∧
    (importOne (newState envW) badPageBundle = .error .MalformedPage ∧
      importMany (newState envW) [badPageBundle] =
        (newState envW, some .MalformedPage)) :=
  ⟨⟨by decide, by decide, by decide, by decide, by decide, by decide⟩,
    C3_malformed_page_import (newState envW) badPageBundle
      ⟨1, ConnKind.Follow, PrivacyType.Public⟩ (by decide) (by decide) (by decide)
      (by decide) (Or.inr (by decide)) (by decide)⟩

/-- Witness for C4 at the concrete bundle carrying schema id 1000. -/
theorem C4_invalid_schema_import_witness :
    resolveSchema (newState envW).env badSchemaBundle.schemaId = none ∧
    (importOne (newState envW) badSchemaBundle = .error .InvalidSchemaId ∧
      importMany (newState envW) [badSchemaBundle] =
        (newState envW, some .InvalidSchemaId) ∧
      (∀ x, containsUser (importMany (newState envW) [badSchemaBundle]).1 x =
        containsUser (newState envW) x)) :=
  ⟨by decide, C4_invalid_schema_import (newState envW) badSchemaBundle (by decide)⟩

/-- Witness for C6 at the concrete two-element connection list. -/
theorem C6_roundtrip_witness :
    ((encodePage [⟨2, 0⟩, ⟨3, 5⟩]).length ≤ 1024 ∧
      (∀ c ∈ [(⟨2, 0⟩ : Connection), ⟨3, 5⟩], c.target < 2 ^ 64 ∧ c.keyIdx < 2 ^ 64)) ∧
    (decodePage (encodePage [⟨2, 0⟩, ⟨3, 5⟩]) = some [⟨2, 0⟩, ⟨3, 5⟩] ∧
      ∀ bs1 bs2 : List Nat, bs1 = bs2 → decodePage bs1 = decodePage bs2) :=
  ⟨⟨by decide, by decide⟩, C6_roundtrip [⟨2, 0⟩, ⟨3, 5⟩] 1024 (by decide) (by decide)⟩

/-- Witness for C7 at the concrete two-user store, removing user 1. -/
theorem C7_remove_idempotent_witness :
    (sTwoUsers.users.map Prod.fst).Nodup ∧
    (removeUser (removeUser sTwoUsers 1) 1 = removeUser sTwoUsers 1 ∧
      containsUser (removeUser sTwoUsers 1) 1 = false ∧
      usersCount (removeUser sTwoUsers 1) =
        usersCount sTwoUsers - (if containsUser sTwoUsers 1 then 1 else 0)) :=
  ⟨by decide, C7_remove_idempotent sTwoUsers 1 (by decide)⟩

/-- Witness for C8 at the concrete bundle carrying a 2-byte public key. -/
theorem C8_invalid_public_key_import_witness :
    (resolveSchema (newState envW).env badPubKeyBundle.schemaId =
        some ⟨1, ConnKind.Follow, PrivacyType.Public⟩ ∧
      usersCount (newState envW) < (newState envW).capacity ∧
      validKeyPairsPub badPubKeyBundle.keyPairs = false) ∧
    (importOne (newState envW) badPubKeyBundle = .error .InvalidPublicKey ∧
      importMany (newState envW) [badPubKeyBundle] =
        (newState envW, some .InvalidPublicKey) ∧
      (∀ pages', importOne (newState envW) { badPubKeyBundle with pages := pages' } =
        .error .InvalidPublicKey)) :=
  ⟨⟨by decide, by decide, by decide⟩,
    C8_invalid_public_key_import (newState envW) badPubKeyBundle
      ⟨1, ConnKind.Follow, PrivacyType.Public⟩ (by decide) (Or.inr (by decide))
      (by decide)⟩

/-- Witness for C9 at the concrete private-schema bundle whose key pair does
not open its sealed page. -/
theorem C9_decryption_failed_import_witness :
    (resolveSchema (newState envW).env wrongKeyBundle.schemaId =
        some ⟨1, ConnKind.Friendship, PrivacyType.Private⟩ ∧
      (⟨1, ConnKind.Friendship, PrivacyType.Private⟩ : SchemaConfig).privacy =
        PrivacyType.Private ∧
      validKeyPairsPub wrongKeyBundle.keyPairs = true ∧
      validKeyPairsSec wrongKeyBundle.keyPairs = true ∧
      containsUser (newState envW) wrongKeyBundle.userId = false ∧
      usersCount (newState envW) < (newState envW).capacity ∧
      wrongKeyBundle.pages = wrongKeyPage :: [] ∧
      openPage wrongKeyPage.rawBytes wrongKeyBundle.keyPairs = none) ∧
    (importOne (newState envW) wrongKeyBundle = .error .DecryptionFailed ∧
      GraphError.DecryptionFailed ≠ GraphError.MalformedPage ∧
      containsUser (importMany (newState envW) [wrongKeyBundle]).1
        wrongKeyBundle.userId = false) :=
  ⟨⟨by decide, by decide, by decide, by decide, by decide, by decide, by decide, by decide⟩,
    C9_decryption_failed_import (newState envW) wrongKeyBundle
      ⟨1, ConnKind.Friendship, PrivacyType.Private⟩ wrongKeyPage [] (by decide)
      (by decide) (by decide) (by decide) (by decide) (by decide) (by decide)
      (by decide)⟩

/-- Witness for C10 at the concrete empty store and user id 42. -/
theorem C10_unknown_user_asymmetry_witness :
    containsUser (newState envW) 42 = false ∧
    (getConnectionsForUser (newState envW) 42 none true = .error .UserNotFound ∧
      errorCode .UserNotFound < 1000 ∧
      getPublicKeys (newState envW) 42 = .ok []) :=
  ⟨by decide, C10_unknown_user_asymmetry (newState envW) 42 none true (by decide)⟩

end GraphSdk
